import Mathlib

set_option maxHeartbeats 1000000

/-!
Shallow embedding of the finance-tracker Telegram mini-app:
the client-side statistics code (`src/webapp/js/app.js`), the REST helper
methods of the `API` class, the Telegram SDK adapter
(`src/webapp/js/telegram.js`) and the PostgreSQL schema
(`src/database/schema.sql`).  JavaScript numbers are modelled as exact
rationals, JS `undefined`/`null` as `Option`, and fallible behaviour with
`Except`.
-/

namespace FinanceTracker

/-- A transaction record as the web-app client holds it in memory
(`this.transactions` in `app.js`); only the fields read by the statistics
and chart code are modelled.  `category_name` is `none` when the record
carries no category name (JS `undefined`/`null`). -/
structure Transaction where
  type : String
  amount : Rat
  category_name : Option String
deriving DecidableEq

/-- JS `transaction.category_name || 'Прочее'`: the empty string is falsy in
JS, so it falls back to the placeholder as well. -/
def categoryNameOr (c : Option String) : String :=
  match c with
  | some s => if s = "" then "Прочее" else s
  | none => "Прочее"

/-- The record produced by `FinanceApp.calculateStats` (`this.stats`). -/
structure Stats where
  totalIncome : Rat
  totalExpense : Rat
  balance : Rat
  count : Nat
  avgExpense : Rat
  topCategory : String
deriving DecidableEq

/-- JS `obj[name] = (obj[name] || 0) + amount` on a plain string-keyed
object: update the entry in place when the key is already present, append a
fresh entry otherwise (JS objects preserve insertion order for string
keys). -/
def assocAdd : List (String × Rat) → String → Rat → List (String × Rat)
  | [], k, v => [(k, v)]
  | e :: rest, k, v =>
    if e.1 = k then (e.1, e.2 + v) :: rest else e :: assocAdd rest k v

/-- `categoryTotals[categoryName] = (categoryTotals[categoryName] || 0) + amount`
for one transaction: the grouping step shared by `calculateStats` and
`updateExpenseChart`. -/
def groupStep (m : List (String × Rat)) (t : Transaction) : List (String × Rat) :=
  assocAdd m (categoryNameOr t.category_name) t.amount

/-- Body of the `this.transactions.forEach` loop of `calculateStats`:
an income amount is added to `totalIncome`; every other transaction adds
its amount to `totalExpense` and to its category's running total. -/
def statsLoop (acc : Stats × List (String × Rat)) (t : Transaction) :
    Stats × List (String × Rat) :=
  if t.type = "income" then
    ({ acc.1 with totalIncome := acc.1.totalIncome + t.amount }, acc.2)
  else
    ({ acc.1 with totalExpense := acc.1.totalExpense + t.amount },
      groupStep acc.2 t)

/-- Body of the `Object.keys(categoryTotals).forEach` loop of
`calculateStats` that tracks `maxAmount` and `topCategory`: only a total
strictly above the running maximum replaces the current pair. -/
def topLoop (acc : Rat × String) (e : String × Rat) : Rat × String :=
  if e.2 > acc.1 then (e.2, e.1) else acc

/-- `FinanceApp.calculateStats` (`app.js` lines 380-422): one pass over the
transaction list accumulating `totalIncome`, `totalExpense` and per-category
totals of the non-income transactions, then `balance`, the average expense
(only when a transaction of type `'expense'` exists) and the top category
(the category with the largest total, kept at `'—'` unless some total
strictly exceeds `0`). -/
def calculateStats (transactions : List Transaction) : Stats :=
  let stats0 : Stats :=
    { totalIncome := 0, totalExpense := 0, balance := 0,
      count := transactions.length, avgExpense := 0, topCategory := "—" }
  let acc := transactions.foldl statsLoop (stats0, [])
  let stats1 := acc.1
  let categoryTotals := acc.2
  let stats2 := { stats1 with balance := stats1.totalIncome - stats1.totalExpense }
  let expenseCount := (transactions.filter fun t => t.type = "expense").length
  let stats3 :=
    if expenseCount > 0 then
      { stats2 with avgExpense := stats2.totalExpense / (expenseCount : Rat) }
    else stats2
  let top := (categoryTotals.foldl topLoop (0, stats3.topCategory)).2
  { stats3 with topCategory := top }

/-- `FinanceApp.updateExpenseChart` (`app.js` lines 760-787): group the
expense transactions by category name, sort the entries by descending total
(JS `.sort((a, b) => b[1] - a[1])`), keep the first 8 and feed the chart;
the chart-object mutation is modelled as returning the label array and the
data array. -/
def updateExpenseChart (transactions : List Transaction) :
    List String × List Rat :=
  let categoryData :=
    (transactions.filter fun t => t.type = "expense").foldl groupStep []
  let sorted :=
    (categoryData.insertionSort fun a b => b.2 ≤ a.2).take 8
  (sorted.map Prod.fst, sorted.map Prod.snd)

/-- Specification vocabulary: the transactions of type `'expense'`. -/
def expenseTransactions (ts : List Transaction) : List Transaction :=
  ts.filter fun t => t.type = "expense"

/-- Specification vocabulary: the summed amount of the expense transactions
of category `c` (with the `'Прочее'` fallback for missing names). -/
def expenseCategoryTotal (ts : List Transaction) (c : String) : Rat :=
  (((expenseTransactions ts).filter
      fun t => categoryNameOr t.category_name = c).map Transaction.amount).sum

/-- First value stored under key `k`, `0` when the key is absent
(JS `obj[k] || 0`). -/
def getTotal : List (String × Rat) → String → Rat
  | [], _ => 0
  | e :: rest, k => if e.1 = k then e.2 else getTotal rest k

end FinanceTracker

namespace API

/-- The loop of `API.retryRequest` (`app.js` lines 1700-1712).  The async
request function is modelled as a deterministic sequence of outcomes
`request : Nat → Except ε α` (`request i` is what attempt `i` returns or
throws), and waiting is modelled by recording the delays passed to
`setTimeout`.  `retryGo request i delay fuel` runs the `for` loop from
iteration `i` with `fuel = maxRetries - i` iterations left (so the source's
`i === maxRetries - 1` test is `fuel = 1`, i.e. the `fuel + 1` pattern with
`fuel = 0`); it returns the value returned or rethrown (`none` only when
the loop body never runs, JS `undefined`), the number of attempts made, and
the list of delays waited. -/
def retryGo (request : Nat → Except ε α) (i : Nat) (delay : Rat) :
    Nat → Option (Except ε α) × Nat × List Rat
  | 0 => (none, 0, [])
  | fuel + 1 =>
    match request i with
    | .ok a => (some (.ok a), 1, [])
    | .error e =>
      if fuel = 0 then (some (.error e), 1, [])
      else
        let r := retryGo request (i + 1) (delay * 2) fuel
        (r.1, r.2.1 + 1, delay :: r.2.2)

/-- `API.retryRequest(requestFn, maxRetries, delay)`: run the retry loop
from iteration `0`. -/
def retryRequest (request : Nat → Except ε α) (maxRetries : Nat)
    (delay : Rat) : Option (Except ε α) × Nat × List Rat :=
  retryGo request 0 delay maxRetries

/-- The transaction payload passed to `API.validateTransaction`
(`app.js` lines 1668-1695); a field the caller did not supply is `none`. -/
structure TxData where
  type : Option String
  amount : Option Rat
  category_id : Option Int
  date : Option String
deriving DecidableEq

/-- JS truthiness of an optional string: `undefined`/`null` and `''` are
falsy. -/
def truthyStr : Option String → Bool
  | none => false
  | some s => !(s = "")

/-- JS truthiness of an optional number: `undefined`/`null` and `0` are
falsy. -/
def truthyRat : Option Rat → Bool
  | none => false
  | some q => !(q = 0)

/-- JS truthiness of an optional integer id. -/
def truthyInt : Option Int → Bool
  | none => false
  | some n => !(n = 0)

/-- JS `['income', 'expense'].includes(data.type)`. -/
def includesType (t : Option String) : Bool :=
  match t with
  | some s => ["income", "expense"].contains s
  | none => false

/-- JS `data.amount <= 0` in the rational model (an absent operand compares
false). -/
def leZero : Option Rat → Bool
  | none => false
  | some q => decide (q ≤ 0)

/-- The `{ valid, errors }` object returned by `validateTransaction`. -/
structure ValidationResult where
  valid : Bool
  errors : List String
deriving DecidableEq

/-- `API.validateTransaction(data)`: push one error message per failed
check, then report `valid` iff no error was pushed. -/
def validateTransaction (data : TxData) : ValidationResult :=
  let errors : List String := []
  let errors :=
    if !truthyStr data.type || !includesType data.type then
      errors ++ ["Неверный тип транзакции"]
    else errors
  let errors :=
    if !truthyRat data.amount || leZero data.amount then
      errors ++ ["Сумма должна быть больше нуля"]
    else errors
  let errors :=
    if !truthyInt data.category_id then
      errors ++ ["Выберите категорию"]
    else errors
  let errors :=
    if !truthyStr data.date then
      errors ++ ["Укажите дату"]
    else errors
  { valid := errors.length == 0, errors := errors }

/-- The argument of `API.formatDate` (`app.js` lines 1569-1588): a JS
string, a JS `Date` (represented by its local calendar components
`getFullYear()`, `getMonth()` — 0-based — and `getDate()`), or any other
value. -/
inductive DateInput
  | str (s : String)
  | date (year : Int) (month0 : Nat) (day : Nat)
  | other
deriving DecidableEq

/-- JS `String(n).padStart(2, '0')`. -/
def padStart2 (s : String) : String :=
  if s.length ≥ 2 then s else String.mk (List.replicate (2 - s.length) '0') ++ s

/-- The `` `${year}-${month}-${day}` `` template of `formatDate`, with the
0-based month incremented and both month and day zero-padded to width 2. -/
def ymd (year : Int) (month0 : Nat) (day : Nat) : String :=
  toString year ++ "-" ++ padStart2 (toString (month0 + 1)) ++ "-"
    ++ padStart2 (toString day)

/-- `API.formatDate(date)`: a string is returned unchanged; a `Date` is
formatted from its local components; anything else falls back to the
current local date `now = (year, month0, day)`. -/
def formatDate (now : Int × Nat × Nat) : DateInput → String
  | .str s => s
  | .date y m d => ymd y m d
  | .other => ymd now.1 now.2.1 now.2.2

end API

namespace TelegramWebApp

/-- The capabilities of the host-provided `window.Telegram.WebApp` bridge
object that the adapter consults (`this.tg?.showAlert`,
`this.tg?.showConfirm` in `telegram.js`). -/
structure Bridge where
  hasShowAlert : Bool
  hasShowConfirm : Bool
deriving DecidableEq

/-- The observable effects of one adapter call, in order. -/
inductive UIEvent
  | tgAlert (message : String)
  | browserAlert (message : String)
  | callbackRun
  | tgConfirm (message : String)
  | browserConfirm (message : String)
  | callbackRunWith (result : Bool)
deriving DecidableEq

/-- `TelegramWebApp.showAlert(message, callback)` (`telegram.js` lines
293-306): delegate to the bridge's `showAlert` when the bridge object
exists and provides one (the callback travels with the bridge call),
otherwise `alert(message)` and then `if (callback) callback()`.
`hasCallback` records whether a callback argument was passed; the bridge
call is modelled as not throwing, so the `catch` fallback is not taken. -/
def showAlert (tg : Option Bridge) (message : String) (hasCallback : Bool) :
    List UIEvent :=
  match tg with
  | some b =>
    if b.hasShowAlert then [.tgAlert message]
    else .browserAlert message :: (if hasCallback then [.callbackRun] else [])
  | none =>
    .browserAlert message :: (if hasCallback then [.callbackRun] else [])

/-- `TelegramWebApp.showConfirm(message, callback)` (`telegram.js` lines
311-324): delegate to the bridge's `showConfirm` when available, otherwise
`confirm(message)` — whose answer is the environment input
`confirmResult` — and then `if (callback) callback(result)`. -/
def showConfirm (tg : Option Bridge) (message : String) (hasCallback : Bool)
    (confirmResult : Bool) : List UIEvent :=
  match tg with
  | some b =>
    if b.hasShowConfirm then [.tgConfirm message]
    else
      .browserConfirm message ::
        (if hasCallback then [.callbackRunWith confirmResult] else [])
  | none =>
    .browserConfirm message ::
      (if hasCallback then [.callbackRunWith confirmResult] else [])

end TelegramWebApp

namespace Schema

/-- The SQL column types appearing in `src/database/schema.sql`. -/
inductive SqlType
  | serial
  | bigint
  | varchar (n : Nat)
  | timestamp
  | boolean
  | integer
  | decimal (precision scale : Nat)
  | text
  | date
deriving DecidableEq

/-- The CHECK constraint forms appearing in `schema.sql`. -/
inductive ColCheck
  | typeInIncomeExpense
  | positive
deriving DecidableEq

/-- One column declaration. -/
structure ColumnDef where
  name : String
  sqlType : SqlType
  primaryKey : Bool := false
  notNull : Bool := false
  unique : Bool := false
  defaultNow : Bool := false
  defaultTrue : Bool := false
  references : Option String := none
  onDelete : Option String := none
  check : Option ColCheck := none
deriving DecidableEq

/-- One CREATE TABLE statement. -/
structure TableDef where
  name : String
  columns : List ColumnDef
deriving DecidableEq

/-- One CREATE INDEX statement. -/
structure IndexDef where
  name : String
  table : String
  columns : List String
deriving DecidableEq

/-- The transcription of `src/database/schema.sql`: its CREATE TABLE and
CREATE INDEX statements. -/
structure SchemaDef where
  tables : List TableDef
  indexes : List IndexDef
deriving DecidableEq

/-- `CREATE TABLE users` (`schema.sql` lines 12-20). -/
def usersTable : TableDef :=
  { name := "users",
    columns :=
      [{ name := "id", sqlType := .serial, primaryKey := true },
       { name := "telegram_user_id", sqlType := .bigint, unique := true,
         notNull := true },
       { name := "username", sqlType := .varchar 255 },
       { name := "first_name", sqlType := .varchar 255 },
       { name := "last_name", sqlType := .varchar 255 },
       { name := "created_at", sqlType := .timestamp, defaultNow := true },
       { name := "updated_at", sqlType := .timestamp, defaultNow := true }] }

/-- `CREATE TABLE categories` (`schema.sql` lines 29-35). -/
def categoriesTable : TableDef :=
  { name := "categories",
    columns :=
      [{ name := "id", sqlType := .serial, primaryKey := true },
       { name := "name", sqlType := .varchar 100, notNull := true,
         unique := true },
       { name := "icon", sqlType := .varchar 10, notNull := true },
       { name := "type", sqlType := .varchar 20, notNull := true,
         check := some .typeInIncomeExpense },
       { name := "is_active", sqlType := .boolean, defaultTrue := true }] }

/-- `CREATE TABLE transactions` (`schema.sql` lines 44-54). -/
def transactionsTable : TableDef :=
  { name := "transactions",
    columns :=
      [{ name := "id", sqlType := .serial, primaryKey := true },
       { name := "user_id", sqlType := .integer, notNull := true,
         references := some "users", onDelete := some "CASCADE" },
       { name := "type", sqlType := .varchar 20, notNull := true,
         check := some .typeInIncomeExpense },
       { name := "amount", sqlType := .decimal 12 2, notNull := true,
         check := some .positive },
       { name := "category_id", sqlType := .integer,
         references := some "categories", onDelete := some "SET NULL" },
       { name := "description", sqlType := .text },
       { name := "transaction_date", sqlType := .date, notNull := true },
       { name := "created_at", sqlType := .timestamp, defaultNow := true },
       { name := "updated_at", sqlType := .timestamp, defaultNow := true }] }

/-- The whole of `schema.sql`: the three tables and every CREATE INDEX. -/
def financeSchema : SchemaDef :=
  { tables := [usersTable, categoriesTable, transactionsTable],
    indexes :=
      [{ name := "idx_users_telegram_id", table := "users",
         columns := ["telegram_user_id"] },
       { name := "idx_users_created_at", table := "users",
         columns := ["created_at"] },
       { name := "idx_categories_type", table := "categories",
         columns := ["type"] },
       { name := "idx_categories_active", table := "categories",
         columns := ["is_active"] },
       { name := "idx_transactions_user_id", table := "transactions",
         columns := ["user_id"] },
       { name := "idx_transactions_user_date", table := "transactions",
         columns := ["user_id", "transaction_date"] },
       { name := "idx_transactions_user_category", table := "transactions",
         columns := ["user_id", "category_id"] },
       { name := "idx_transactions_type", table := "transactions",
         columns := ["type"] },
       { name := "idx_transactions_date", table := "transactions",
         columns := ["transaction_date"] },
       { name := "idx_transactions_created_at", table := "transactions",
         columns := ["created_at"] },
       { name := "idx_transactions_user_type_date", table := "transactions",
         columns := ["user_id", "type", "transaction_date"] }] }

/-- A `users` row (timestamps as abstract instants). -/
structure UsersRow where
  id : Int
  telegram_user_id : Int
  username : Option String
  first_name : Option String
  last_name : Option String
  created_at : Nat
  updated_at : Nat
deriving DecidableEq

/-- A `transactions` row. -/
structure TransactionsRow where
  id : Int
  user_id : Int
  type : String
  amount : Rat
  category_id : Option Int
  description : Option String
  transaction_date : Nat
  created_at : Nat
  updated_at : Nat
deriving DecidableEq

/-- `update_updated_at_column()` (`schema.sql` lines 72-78) as the BEFORE
UPDATE trigger of `users` (`update_users_updated_at`): it receives the row
`NEW` proposed by the UPDATE statement, runs `NEW.updated_at = NOW()`, and
the returned row is what gets stored. -/
def updateUpdatedAtUsers (new : UsersRow) (now : Nat) : UsersRow :=
  { new with updated_at := now }

/-- `update_updated_at_column()` as the BEFORE UPDATE trigger of
`transactions` (`update_transactions_updated_at`). -/
def updateUpdatedAtTransactions (new : TransactionsRow) (now : Nat) :
    TransactionsRow :=
  { new with updated_at := now }

end Schema

namespace Database

/-- A candidate `transactions` row as proposed by an INSERT or UPDATE
statement (the generated `id` lives outside, and the timestamp columns are
irrelevant to the declared row constraints).  Nullable columns are
`Option`s; `transaction_date = none` models writing NULL into the NOT NULL
column. -/
structure TxRow where
  user_id : Int
  type : String
  amount : Rat
  category_id : Option Int
  description : Option String
  transaction_date : Option Nat
deriving DecidableEq

/-- The row constraints declared for `transactions` in `schema.sql`
(lines 44-54): `CHECK (type IN ('income', 'expense'))`,
`CHECK (amount > 0)`, `transaction_date DATE NOT NULL`, and
`user_id INTEGER NOT NULL REFERENCES users(id)`, checked against the
current set of user ids. -/
def txRowOk (userIds : List Int) (r : TxRow) : Bool :=
  (r.type == "income" || r.type == "expense") &&
    decide (0 < r.amount) &&
    userIds.contains r.user_id &&
    r.transaction_date.isSome

/-- The database state the claim ranges over: the `users` keys and the
`transactions` table as `(id, row)` pairs. -/
structure DBState where
  userIds : List Int
  transactions : List (Int × TxRow)
deriving DecidableEq

/-- The statements the claim quantifies over: inserts into `users` (needed
for the foreign key) and inserts/updates on `transactions`. -/
inductive DBOp
  | insertUser (id : Int)
  | insertTx (id : Int) (row : TxRow)
  | updateTx (id : Int) (row : TxRow)
deriving DecidableEq

/-- PostgreSQL's enforcement of the constraints declared in `schema.sql`,
modelled for the operations above: a statement that would violate a
declared constraint (or reuse a primary key) is rejected and leaves the
database unchanged; an accepted insert appends the row, an accepted update
replaces the matching row's non-key columns. -/
def applyOp (db : DBState) : DBOp → DBState
  | .insertUser uid =>
    if db.userIds.contains uid then db
    else { db with userIds := db.userIds ++ [uid] }
  | .insertTx id row =>
    if txRowOk db.userIds row && !(db.transactions.any fun e => e.1 == id) then
      { db with transactions := db.transactions ++ [(id, row)] }
    else db
  | .updateTx id row =>
    if txRowOk db.userIds row then
      { db with
        transactions :=
          db.transactions.map fun e => if e.1 == id then (id, row) else e }
    else db

/-- The empty database right after the schema is created. -/
def initialState : DBState := { userIds := [], transactions := [] }

/-- Run a sequence of statements from the empty database. -/
def runOps (ops : List DBOp) : DBState := ops.foldl applyOp initialState

/-- Specification vocabulary (the declared row invariants of
`transactions`, relative to the users recorded in state `db`): positive
amount, income/expense type, a `user_id` referencing an existing user, and
a present `transaction_date`. -/
def rowInv (db : DBState) (r : TxRow) : Prop :=
  (r.type = "income" ∨ r.type = "expense") ∧ 0 < r.amount ∧
    r.user_id ∈ db.userIds ∧ r.transaction_date.isSome = true

end Database

namespace FinanceTracker

theorem getTotal_assocAdd (m : List (String × Rat)) (k k' : String) (v : Rat) :
    getTotal (assocAdd m k v) k' =
      if k' = k then getTotal m k' + v else getTotal m k' := by
  induction m with
  | nil =>
    by_cases h : k' = k
    · subst h; simp [assocAdd, getTotal]
    · have h' : ¬ k = k' := fun hh => h hh.symm
      simp [assocAdd, getTotal, h, h']
  | cons e rest ih =>
    by_cases h1 : e.1 = k
    · by_cases h2 : k' = k
      · subst h2; simp [assocAdd, getTotal, h1]
      · have h3 : ¬ e.1 = k' := fun h' => h2 (h'.symm.trans h1)
        have h4 : ¬ k = k' := fun hh => h2 hh.symm
        simp [assocAdd, getTotal, h1, h2, h3, h4]
    · by_cases h2 : k' = k
      · subst h2
        have h3 : ¬ e.1 = k' := h1
        simp [assocAdd, getTotal, h1, h3, ih]
      · by_cases h3 : e.1 = k'
        · simp [assocAdd, getTotal, h1, h2, h3]
        · simp [assocAdd, getTotal, h1, h2, h3, ih]

theorem keys_assocAdd (m : List (String × Rat)) (k : String) (v : Rat) :
    (assocAdd m k v).map Prod.fst =
      if k ∈ m.map Prod.fst then m.map Prod.fst
      else m.map Prod.fst ++ [k] := by
  induction m with
  | nil => simp [assocAdd]
  | cons e rest ih =>
    by_cases h1 : e.1 = k
    · simp [assocAdd, h1]
    · have h2 : ¬ k = e.1 := fun h => h1 h.symm
      by_cases h3 : k ∈ rest.map Prod.fst <;>
        simp [assocAdd, h1, h2, h3, ih]

end FinanceTracker

namespace FinanceTracker

theorem mem_keys_assocAdd (m : List (String × Rat)) (k k' : String) (v : Rat) :
    k' ∈ (assocAdd m k v).map Prod.fst ↔
      k' ∈ m.map Prod.fst ∨ k' = k := by
  rw [keys_assocAdd]
  by_cases h : k ∈ m.map Prod.fst
  · simp only [h, if_true]
    constructor
    · exact Or.inl
    · rintro (hk | hk)
      · exact hk
      · exact hk ▸ h
  · simp [h, or_comm]

theorem nodup_keys_assocAdd (m : List (String × Rat)) (k : String) (v : Rat)
    (h : (m.map Prod.fst).Nodup) : ((assocAdd m k v).map Prod.fst).Nodup := by
  rw [keys_assocAdd]
  by_cases hk : k ∈ m.map Prod.fst
  · simpa [hk] using h
  · rw [if_neg hk, List.nodup_append]
    refine ⟨h, List.nodup_singleton k, ?_⟩
    intro a ha hak
    rw [List.mem_singleton] at hak
    exact hk (hak ▸ ha)

theorem getTotal_of_mem (m : List (String × Rat))
    (h : (m.map Prod.fst).Nodup) (e : String × Rat) (he : e ∈ m) :
    getTotal m e.1 = e.2 := by
  induction m with
  | nil => cases he
  | cons f rest ih =>
    rcases List.mem_cons.mp he with he | he
    · subst he; simp [getTotal]
    · have hf : ¬ f.1 = e.1 := by
        intro hfe
        have hm : e.1 ∈ rest.map Prod.fst := List.mem_map_of_mem Prod.fst he
        rw [List.map_cons, List.nodup_cons] at h
        exact h.1 (hfe ▸ hm)
      rw [List.map_cons, List.nodup_cons] at h
      simp [getTotal, hf, ih h.2 he]

theorem mem_of_mem_keys (m : List (String × Rat)) (k : String)
    (h : k ∈ m.map Prod.fst) : (k, getTotal m k) ∈ m := by
  induction m with
  | nil => cases h
  | cons e rest ih =>
    by_cases he : e.1 = k
    · subst he
      have h2 : (e.1, getTotal (e :: rest) e.1) = e := by
        simp [getTotal]
      rw [h2]
      exact List.mem_cons_self e rest
    · right
      rw [List.map_cons] at h
      rcases List.mem_cons.mp h with h | h
      · exact absurd h (fun hh => he hh.symm)
      · simpa [getTotal, he] using ih h

end FinanceTracker

namespace FinanceTracker

theorem getTotal_groupFold (ts : List Transaction) (m : List (String × Rat))
    (k : String) :
    getTotal (ts.foldl groupStep m) k =
      getTotal m k +
        ((ts.filter fun t => categoryNameOr t.category_name = k).map
          Transaction.amount).sum := by
  induction ts generalizing m with
  | nil => simp
  | cons t ts ih =>
    rw [List.foldl_cons, ih]
    rw [groupStep, getTotal_assocAdd]
    by_cases h : categoryNameOr t.category_name = k
    · rw [if_pos h.symm, List.filter_cons_of_pos (by simpa using h)]
      simp [add_assoc]
    · rw [if_neg (fun hh => h hh.symm),
        List.filter_cons_of_neg (by simpa using h)]

theorem mem_keys_groupFold (ts : List Transaction) (m : List (String × Rat))
    (k : String) :
    k ∈ (ts.foldl groupStep m).map Prod.fst ↔
      k ∈ m.map Prod.fst ∨
        k ∈ ts.map fun t => categoryNameOr t.category_name := by
  induction ts generalizing m with
  | nil => simp
  | cons t ts ih =>
    rw [List.foldl_cons, ih, groupStep, mem_keys_assocAdd]
    simp [or_assoc, or_comm, or_left_comm]

theorem nodup_keys_groupFold (ts : List Transaction) (m : List (String × Rat))
    (h : (m.map Prod.fst).Nodup) :
    ((ts.foldl groupStep m).map Prod.fst).Nodup := by
  induction ts generalizing m with
  | nil => exact h
  | cons t ts ih =>
    exact ih _ (nodup_keys_assocAdd _ _ _ h)

theorem topLoop_fold_fst_le (l : List (String × Rat)) (a : Rat × String) :
    a.1 ≤ (l.foldl topLoop a).1 := by
  induction l generalizing a with
  | nil => exact le_refl _
  | cons e l ih =>
    rw [List.foldl_cons]
    refine le_trans ?_ (ih (topLoop a e))
    rw [topLoop]
    split
    · exact le_of_lt (by assumption)
    · exact le_refl _

theorem le_topLoop_fold_fst (l : List (String × Rat)) (a : Rat × String)
    (e : String × Rat) (he : e ∈ l) : e.2 ≤ (l.foldl topLoop a).1 := by
  induction l generalizing a with
  | nil => cases he
  | cons f l ih =>
    rcases List.mem_cons.mp he with he | he
    · subst he
      rw [List.foldl_cons]
      refine le_trans ?_ (topLoop_fold_fst_le l (topLoop a e))
      rw [topLoop]
      split
      · exact le_refl _
      · exact le_of_not_lt (by assumption)
    · rw [List.foldl_cons]
      exact ih (topLoop a f) he

theorem topLoop_fold_cases (l : List (String × Rat)) (a : Rat × String) :
    l.foldl topLoop a = a ∨
      ∃ e ∈ l, l.foldl topLoop a = (e.2, e.1) := by
  induction l generalizing a with
  | nil => exact Or.inl rfl
  | cons f l ih =>
    rw [List.foldl_cons, topLoop]
    split
    · rcases ih (f.2, f.1) with h | ⟨e, he, h⟩
      · exact Or.inr ⟨f, List.mem_cons_self f l, h⟩
      · exact Or.inr ⟨e, List.mem_cons_of_mem f he, h⟩
    · rcases ih a with h | ⟨e, he, h⟩
      · exact Or.inl h
      · exact Or.inr ⟨e, List.mem_cons_of_mem f he, h⟩

end FinanceTracker

namespace FinanceTracker

theorem statsLoop_fold_count (ts : List Transaction)
    (s : Stats) (m : List (String × Rat)) :
    (ts.foldl statsLoop (s, m)).1.count = s.count := by
  induction ts generalizing s m with
  | nil => rfl
  | cons t ts ih =>
    rw [List.foldl_cons, statsLoop]
    split
    · exact ih _ _
    · exact ih _ _

theorem statsLoop_fold_topCategory (ts : List Transaction)
    (s : Stats) (m : List (String × Rat)) :
    (ts.foldl statsLoop (s, m)).1.topCategory = s.topCategory := by
  induction ts generalizing s m with
  | nil => rfl
  | cons t ts ih =>
    rw [List.foldl_cons, statsLoop]
    split
    · exact ih _ _
    · exact ih _ _

theorem statsLoop_fold_totalIncome (ts : List Transaction)
    (s : Stats) (m : List (String × Rat)) :
    (ts.foldl statsLoop (s, m)).1.totalIncome =
      s.totalIncome +
        ((ts.filter fun t => t.type = "income").map Transaction.amount).sum := by
  induction ts generalizing s m with
  | nil => simp
  | cons t ts ih =>
    rw [List.foldl_cons, statsLoop]
    by_cases h : t.type = "income"
    · rw [if_pos h, ih, List.filter_cons_of_pos (by simpa using h)]
      simp [add_assoc]
    · rw [if_neg h, ih, List.filter_cons_of_neg (by simpa using h)]

theorem statsLoop_fold_totalExpense (ts : List Transaction)
    (s : Stats) (m : List (String × Rat)) :
    (ts.foldl statsLoop (s, m)).1.totalExpense =
      s.totalExpense +
        ((ts.filter fun t => ¬ t.type = "income").map Transaction.amount).sum := by
  induction ts generalizing s m with
  | nil => simp
  | cons t ts ih =>
    rw [List.foldl_cons, statsLoop]
    by_cases h : t.type = "income"
    · rw [if_pos h, ih, List.filter_cons_of_neg (by simpa using h)]
    · rw [if_neg h, ih, List.filter_cons_of_pos (by simpa using h)]
      simp [add_assoc]

theorem statsLoop_fold_snd (ts : List Transaction)
    (s : Stats) (m : List (String × Rat)) :
    (ts.foldl statsLoop (s, m)).2 =
      (ts.filter fun t => ¬ t.type = "income").foldl groupStep m := by
  induction ts generalizing s m with
  | nil => rfl
  | cons t ts ih =>
    rw [List.foldl_cons, statsLoop]
    by_cases h : t.type = "income"
    · rw [if_pos h, ih, List.filter_cons_of_neg (by simpa using h)]
    · rw [if_neg h, ih, List.filter_cons_of_pos (by simpa using h)]
      rfl

end FinanceTracker

namespace FinanceTracker

theorem statsLoop_fold_avgExpense (ts : List Transaction)
    (s : Stats) (m : List (String × Rat)) :
    (ts.foldl statsLoop (s, m)).1.avgExpense = s.avgExpense := by
  induction ts generalizing s m with
  | nil => rfl
  | cons t ts ih =>
    rw [List.foldl_cons, statsLoop]
    split
    · exact ih _ _
    · exact ih _ _

theorem calculateStats_totalIncome (ts : List Transaction) :
    (calculateStats ts).totalIncome =
      ((ts.filter fun t => t.type = "income").map Transaction.amount).sum := by
  simp only [calculateStats]
  split
  · rw [statsLoop_fold_totalIncome]
    simp
  · rw [statsLoop_fold_totalIncome]
    simp

theorem calculateStats_totalExpense (ts : List Transaction) :
    (calculateStats ts).totalExpense =
      ((ts.filter fun t => ¬ t.type = "income").map Transaction.amount).sum := by
  simp only [calculateStats]
  split
  · rw [statsLoop_fold_totalExpense]
    simp
  · rw [statsLoop_fold_totalExpense]
    simp

theorem calculateStats_count (ts : List Transaction) :
    (calculateStats ts).count = ts.length := by
  simp only [calculateStats]
  split
  · rw [statsLoop_fold_count]
  · rw [statsLoop_fold_count]

theorem calculateStats_balance (ts : List Transaction) :
    (calculateStats ts).balance =
      ((ts.filter fun t => t.type = "income").map Transaction.amount).sum -
        ((ts.filter fun t => ¬ t.type = "income").map Transaction.amount).sum := by
  simp only [calculateStats]
  split
  · rw [statsLoop_fold_totalIncome, statsLoop_fold_totalExpense]
    simp
  · rw [statsLoop_fold_totalIncome, statsLoop_fold_totalExpense]
    simp

theorem calculateStats_avgExpense (ts : List Transaction) :
    (calculateStats ts).avgExpense =
      if 0 < (expenseTransactions ts).length then
        ((ts.filter fun t => ¬ t.type = "income").map Transaction.amount).sum /
          ((expenseTransactions ts).length : Rat)
      else 0 := by
  simp only [calculateStats, expenseTransactions]
  split
  · rw [statsLoop_fold_totalExpense]
    simp
  · simp [statsLoop_fold_avgExpense]

theorem calculateStats_topCategory (ts : List Transaction) :
    (calculateStats ts).topCategory =
      (((ts.filter fun t => ¬ t.type = "income").foldl groupStep []).foldl
        topLoop (0, "—")).2 := by
  simp only [calculateStats]
  split
  · rw [statsLoop_fold_snd, statsLoop_fold_topCategory]
  · rw [statsLoop_fold_snd, statsLoop_fold_topCategory]

end FinanceTracker

namespace FinanceTracker

theorem filter_nonIncome_eq (ts : List Transaction)
    (hty : ∀ t ∈ ts, t.type = "income" ∨ t.type = "expense") :
    (ts.filter fun t => ¬ t.type = "income") = expenseTransactions ts := by
  rw [expenseTransactions]
  exact List.filter_congr fun t ht => by
    rcases hty t ht with h | h <;> simp [h]

theorem getTotal_expense_groupFold (ts : List Transaction) (k : String) :
    getTotal ((expenseTransactions ts).foldl groupStep []) k =
      expenseCategoryTotal ts k := by
  rw [getTotal_groupFold, expenseCategoryTotal]
  simp [getTotal]

end FinanceTracker

namespace FinanceTracker

/-- C2: after `FinanceApp.calculateStats` runs on any transaction list,
`stats.balance = stats.totalIncome - stats.totalExpense` and `stats.count`
is the length of the list. -/
theorem calculateStats_balance_count (ts : List Transaction) :
    (calculateStats ts).balance =
        (calculateStats ts).totalIncome - (calculateStats ts).totalExpense ∧
      (calculateStats ts).count = ts.length := by
  refine ⟨?_, calculateStats_count ts⟩
  rw [calculateStats_balance, calculateStats_totalIncome,
    calculateStats_totalExpense]

end FinanceTracker

namespace FinanceTracker

/-- C1 (amended): over transaction lists whose types are all `'income'` or
`'expense'` and whose amounts are all positive, `calculateStats` computes
`totalIncome` as the sum of the income amounts, `totalExpense` as the sum
of the amounts of all other transactions, `avgExpense` as
`totalExpense / #expenses` when an expense exists and `0` otherwise, and
`topCategory` as an expense category of maximal summed amount (the
placeholder `'—'` when there is no expense transaction). -/
theorem calculateStats_spec (ts : List Transaction)
    (hty : ∀ t ∈ ts, t.type = "income" ∨ t.type = "expense")
    (hpos : ∀ t ∈ ts, 0 < t.amount) :
    (calculateStats ts).totalIncome =
        ((ts.filter fun t => t.type = "income").map Transaction.amount).sum ∧
      (calculateStats ts).totalExpense =
        ((ts.filter fun t => ¬ t.type = "income").map Transaction.amount).sum ∧
      (calculateStats ts).avgExpense =
        (if 0 < (expenseTransactions ts).length then
          (calculateStats ts).totalExpense /
            ((expenseTransactions ts).length : Rat)
        else 0) ∧
      (expenseTransactions ts ≠ [] →
        (∃ t ∈ expenseTransactions ts,
          categoryNameOr t.category_name = (calculateStats ts).topCategory) ∧
        ∀ t ∈ expenseTransactions ts,
          expenseCategoryTotal ts (categoryNameOr t.category_name) ≤
            expenseCategoryTotal ts ((calculateStats ts).topCategory)) ∧
      (expenseTransactions ts = [] →
        (calculateStats ts).topCategory = "—") := by
  refine ⟨calculateStats_totalIncome ts, calculateStats_totalExpense ts, ?_, ?_, ?_⟩
  · rw [calculateStats_avgExpense, calculateStats_totalExpense]
  · intro hne
    have hfe := filter_nonIncome_eq ts hty
    have htop : (calculateStats ts).topCategory =
        (((expenseTransactions ts).foldl groupStep []).foldl
          topLoop (0, "—")).2 := by
      rw [calculateStats_topCategory, hfe]
    have hnodup : (((expenseTransactions ts).foldl groupStep []).map
        Prod.fst).Nodup := nodup_keys_groupFold _ _ (by simp)
    obtain ⟨t0, ht0⟩ := List.exists_mem_of_ne_nil _ hne
    have hk0 : categoryNameOr t0.category_name ∈
        ((expenseTransactions ts).foldl groupStep []).map Prod.fst := by
      rw [mem_keys_groupFold]
      exact Or.inr (List.mem_map_of_mem _ ht0)
    have hmem0 := mem_of_mem_keys _ _ hk0
    have hv0 := getTotal_expense_groupFold ts (categoryNameOr t0.category_name)
    have hpos0 : 0 < expenseCategoryTotal ts (categoryNameOr t0.category_name) := by
      rw [expenseCategoryTotal]
      refine List.sum_pos _ ?_ ?_
      · intro x hx
        obtain ⟨t, ht, rfl⟩ := List.mem_map.mp hx
        exact hpos t (List.mem_of_mem_filter
          (List.mem_of_mem_filter ht : t ∈ ts.filter fun t => t.type = "expense"))
      · refine List.ne_nil_of_mem (a := t0.amount) ?_
        refine List.mem_map_of_mem _ ?_
        exact List.mem_filter.mpr ⟨ht0, by simp⟩
    have hle0 : getTotal ((expenseTransactions ts).foldl groupStep [])
        (categoryNameOr t0.category_name) ≤
        (((expenseTransactions ts).foldl groupStep []).foldl
          topLoop (0, "—")).1 :=
      le_topLoop_fold_fst _ _ _ hmem0
    have hrpos : 0 <
        (((expenseTransactions ts).foldl groupStep []).foldl
          topLoop (0, "—")).1 :=
      lt_of_lt_of_le (hv0 ▸ hpos0) hle0
    rcases topLoop_fold_cases ((expenseTransactions ts).foldl groupStep [])
        (0, "—") with hcase | ⟨e, he, hcase⟩
    · rw [hcase] at hrpos
      exact absurd hrpos (lt_irrefl 0)
    · have he2 : getTotal ((expenseTransactions ts).foldl groupStep []) e.1 =
          e.2 := getTotal_of_mem _ hnodup e he
      have he1 : e.1 ∈ ((expenseTransactions ts).foldl groupStep []).map
          Prod.fst := List.mem_map_of_mem Prod.fst he
      rw [mem_keys_groupFold] at he1
      rcases he1 with he1 | he1
      · cases he1
      · obtain ⟨t1, ht1, hcat1⟩ := List.mem_map.mp he1
        constructor
        · exact ⟨t1, ht1, by rw [htop, hcase]; exact hcat1⟩
        · intro t ht
          have hk : categoryNameOr t.category_name ∈
              ((expenseTransactions ts).foldl groupStep []).map Prod.fst := by
            rw [mem_keys_groupFold]
            exact Or.inr (List.mem_map_of_mem _ ht)
          have hmem := mem_of_mem_keys _ _ hk
          have hlet : getTotal ((expenseTransactions ts).foldl groupStep [])
              (categoryNameOr t.category_name) ≤
              (((expenseTransactions ts).foldl groupStep []).foldl
                topLoop (0, "—")).1 :=
            le_topLoop_fold_fst _ _ _ hmem
          rw [hcase] at hlet
          rw [htop, hcase]
          calc expenseCategoryTotal ts (categoryNameOr t.category_name)
              = getTotal ((expenseTransactions ts).foldl groupStep [])
                (categoryNameOr t.category_name) :=
                (getTotal_expense_groupFold ts _).symm
            _ ≤ e.2 := hlet
            _ = getTotal ((expenseTransactions ts).foldl groupStep []) e.1 :=
                he2.symm
            _ = expenseCategoryTotal ts e.1 := getTotal_expense_groupFold ts _
  · intro hemp
    rw [calculateStats_topCategory, filter_nonIncome_eq ts hty, hemp]
    rfl

end FinanceTracker

namespace FinanceTracker

theorem expenseChart_entry_total (ts : List Transaction)
    (e : String × Rat)
    (he : e ∈ (expenseTransactions ts).foldl groupStep []) :
    e.2 = expenseCategoryTotal ts e.1 := by
  have hnodup : (((expenseTransactions ts).foldl groupStep []).map
      Prod.fst).Nodup := nodup_keys_groupFold _ _ (by simp)
  rw [← getTotal_of_mem _ hnodup e he, getTotal_expense_groupFold]

/-- C3: `updateExpenseChart` groups the expense transactions by category
name (missing names under `'Прочее'`), sums the amounts per group, and
feeds the chart at most 8 categories whose data are the group totals in
descending order, every omitted category's total being at most every
included category's total. -/
theorem updateExpenseChart_spec (ts : List Transaction) :
    (updateExpenseChart ts).1.length ≤ 8 ∧
      (updateExpenseChart ts).2 =
        (updateExpenseChart ts).1.map (expenseCategoryTotal ts) ∧
      (updateExpenseChart ts).1.Nodup ∧
      (∀ c ∈ (updateExpenseChart ts).1,
        ∃ t ∈ expenseTransactions ts, categoryNameOr t.category_name = c) ∧
      (updateExpenseChart ts).2.Pairwise (fun a b => b ≤ a) ∧
      (∀ c, (∃ t ∈ expenseTransactions ts,
          categoryNameOr t.category_name = c) →
        c ∉ (updateExpenseChart ts).1 →
        ∀ c' ∈ (updateExpenseChart ts).1,
          expenseCategoryTotal ts c ≤ expenseCategoryTotal ts c') := by
  have hchart : updateExpenseChart ts =
      ((((expenseTransactions ts).foldl groupStep []).insertionSort
          (fun a b => b.2 ≤ a.2)).take 8 |>.map Prod.fst,
        (((expenseTransactions ts).foldl groupStep []).insertionSort
          (fun a b => b.2 ≤ a.2)).take 8 |>.map Prod.snd) := by
    rw [updateExpenseChart, expenseTransactions]
  have htotal : IsTotal (String × Rat) (fun a b => b.2 ≤ a.2) :=
    ⟨fun a b => le_total b.2 a.2⟩
  have htrans : IsTrans (String × Rat) (fun a b => b.2 ≤ a.2) :=
    ⟨fun _ _ _ hab hbc => le_trans hbc hab⟩
  have hsorted : (((expenseTransactions ts).foldl groupStep []).insertionSort
      (fun a b => b.2 ≤ a.2)).Pairwise (fun a b => b.2 ≤ a.2) :=
    @List.sorted_insertionSort _ _ _ htotal htrans _
  have hperm := List.perm_insertionSort (fun a b : String × Rat => b.2 ≤ a.2)
    ((expenseTransactions ts).foldl groupStep [])
  have hmemct : ∀ e ∈ (((expenseTransactions ts).foldl groupStep
      []).insertionSort (fun a b => b.2 ≤ a.2)).take 8,
      e ∈ (expenseTransactions ts).foldl groupStep [] := fun e he =>
    hperm.mem_iff.mp ((List.take_sublist 8 _).subset he)
  have hnodup : (((expenseTransactions ts).foldl groupStep []).map
      Prod.fst).Nodup := nodup_keys_groupFold _ _ (by simp)
  refine ⟨?_, ?_, ?_, ?_, ?_, ?_⟩
  · rw [hchart]
    simp
  · rw [hchart]
    simp only [List.map_map]
    refine (List.map_congr_left ?_).symm
    intro e he
    exact (expenseChart_entry_total ts e (hmemct e he)).symm
  · rw [hchart]
    have h1 : ((((expenseTransactions ts).foldl groupStep []).insertionSort
        (fun a b => b.2 ≤ a.2)).map Prod.fst).Nodup :=
      ((hperm.map Prod.fst).nodup_iff).mpr hnodup
    exact h1.sublist ((List.take_sublist 8 _).map Prod.fst)
  · rw [hchart]
    intro c hc
    obtain ⟨e, he, rfl⟩ := List.mem_map.mp hc
    have : e.1 ∈ ((expenseTransactions ts).foldl groupStep []).map Prod.fst :=
      List.mem_map_of_mem Prod.fst (hmemct e he)
    rw [mem_keys_groupFold] at this
    rcases this with h | h
    · cases h
    · obtain ⟨t, ht, hcat⟩ := List.mem_map.mp h
      exact ⟨t, ht, hcat⟩
  · rw [hchart]
    refine List.pairwise_map.mpr ?_
    exact (hsorted.sublist (List.take_sublist 8 _))
  · rw [hchart]
    intro c hex hnotin c' hc'
    obtain ⟨t, ht, hcat⟩ := hex
    have hkc : c ∈ ((expenseTransactions ts).foldl groupStep []).map
        Prod.fst := by
      rw [mem_keys_groupFold]
      exact Or.inr (hcat ▸ List.mem_map_of_mem _ ht)
    have hmemc := mem_of_mem_keys _ _ hkc
    have hcs : (c, getTotal ((expenseTransactions ts).foldl groupStep []) c) ∈
        ((expenseTransactions ts).foldl groupStep []).insertionSort
          (fun a b => b.2 ≤ a.2) := hperm.mem_iff.mpr hmemc
    rw [← List.take_append_drop 8 (((expenseTransactions ts).foldl groupStep
      []).insertionSort (fun a b => b.2 ≤ a.2))] at hcs
    rcases List.mem_append.mp hcs with hcs | hcs
    · exact absurd (List.mem_map_of_mem Prod.fst hcs) hnotin
    · obtain ⟨e', he', rfl⟩ := List.mem_map.mp hc'
      have hs2 : ((((expenseTransactions ts).foldl groupStep
          []).insertionSort (fun a b => b.2 ≤ a.2)).take 8 ++
          (((expenseTransactions ts).foldl groupStep []).insertionSort
            (fun a b => b.2 ≤ a.2)).drop 8).Pairwise
          (fun a b => b.2 ≤ a.2) := by
        rw [List.take_append_drop]
        exact hsorted
      have hle := (List.pairwise_append.mp hs2).2.2 e' he' _ hcs
      have h1 : expenseCategoryTotal ts c =
          getTotal ((expenseTransactions ts).foldl groupStep []) c :=
        (getTotal_expense_groupFold ts c).symm
      have h2 : e'.2 = expenseCategoryTotal ts e'.1 :=
        expenseChart_entry_total ts e' (hmemct e' he')
      rw [h1, ← h2]
      exact hle

end FinanceTracker

namespace FinanceTracker

section

attribute [local semireducible] Rat.add
attribute [local semireducible] Rat.sub
attribute [local semireducible] Rat.mul
attribute [local semireducible] Rat.inv

/-- C1 counterexample to the claim as stated, at two concrete lists.
First list, a single expense transaction of amount `0` and category `Еда`:
an expense transaction exists and every expense category is `Еда` (of
maximal summed amount), yet `topCategory` stays the placeholder `—`.
Second list, a `transfer` transaction of amount `5` (category `B`) and an
expense transaction of amount `1` (category `A`): the only expense
category is `A`, yet `topCategory` is `B`. -/
theorem calculateStats_topCategory_cex :
    ((calculateStats [⟨"expense", 0, some "Еда"⟩]).topCategory = "—" ∧
      (∃ t ∈ ([⟨"expense", 0, some "Еда"⟩] : List Transaction),
        t.type = "expense") ∧
      (∀ t ∈ ([⟨"expense", 0, some "Еда"⟩] : List Transaction),
        categoryNameOr t.category_name = "Еда") ∧
      ¬ ("—" : String) = "Еда") ∧
    ((calculateStats
        [⟨"transfer", 5, some "B"⟩, ⟨"expense", 1, some "A"⟩]).topCategory
          = "B" ∧
      (∀ t ∈ ([⟨"transfer", 5, some "B"⟩, ⟨"expense", 1, some "A"⟩] :
          List Transaction),
        t.type = "expense" → categoryNameOr t.category_name = "A") ∧
      ¬ ("B" : String) = "A") := by
  decide

/-- C1 witness: the amended statement instantiated at a concrete
two-transaction list. -/
theorem calculateStats_spec_witness :
    (∀ t ∈ ([⟨"income", 10, none⟩, ⟨"expense", 4, some "Кафе"⟩] :
        List Transaction), t.type = "income" ∨ t.type = "expense") ∧
      (∀ t ∈ ([⟨"income", 10, none⟩, ⟨"expense", 4, some "Кафе"⟩] :
        List Transaction), 0 < t.amount) ∧
      ((calculateStats [⟨"income", 10, none⟩,
          ⟨"expense", 4, some "Кафе"⟩]).totalIncome =
        ((([⟨"income", 10, none⟩, ⟨"expense", 4, some "Кафе"⟩] :
          List Transaction).filter fun t => t.type = "income").map
            Transaction.amount).sum ∧
      (calculateStats [⟨"income", 10, none⟩,
          ⟨"expense", 4, some "Кафе"⟩]).totalExpense =
        ((([⟨"income", 10, none⟩, ⟨"expense", 4, some "Кафе"⟩] :
          List Transaction).filter fun t => ¬ t.type = "income").map
            Transaction.amount).sum ∧
      (calculateStats [⟨"income", 10, none⟩,
          ⟨"expense", 4, some "Кафе"⟩]).avgExpense =
        (if 0 < (expenseTransactions [⟨"income", 10, none⟩,
            ⟨"expense", 4, some "Кафе"⟩]).length then
          (calculateStats [⟨"income", 10, none⟩,
            ⟨"expense", 4, some "Кафе"⟩]).totalExpense /
            ((expenseTransactions [⟨"income", 10, none⟩,
              ⟨"expense", 4, some "Кафе"⟩]).length : Rat)
        else 0) ∧
      (expenseTransactions [⟨"income", 10, none⟩,
          ⟨"expense", 4, some "Кафе"⟩] ≠ [] →
        (∃ t ∈ expenseTransactions [⟨"income", 10, none⟩,
            ⟨"expense", 4, some "Кафе"⟩],
          categoryNameOr t.category_name =
            (calculateStats [⟨"income", 10, none⟩,
              ⟨"expense", 4, some "Кафе"⟩]).topCategory) ∧
        ∀ t ∈ expenseTransactions [⟨"income", 10, none⟩,
            ⟨"expense", 4, some "Кафе"⟩],
          expenseCategoryTotal [⟨"income", 10, none⟩,
              ⟨"expense", 4, some "Кафе"⟩] (categoryNameOr t.category_name) ≤
            expenseCategoryTotal [⟨"income", 10, none⟩,
              ⟨"expense", 4, some "Кафе"⟩]
              ((calculateStats [⟨"income", 10, none⟩,
                ⟨"expense", 4, some "Кафе"⟩]).topCategory)) ∧
      (expenseTransactions [⟨"income", 10, none⟩,
          ⟨"expense", 4, some "Кафе"⟩] = [] →
        (calculateStats [⟨"income", 10, none⟩,
          ⟨"expense", 4, some "Кафе"⟩]).topCategory = "—")) :=
  ⟨by decide, by decide,
    calculateStats_spec [⟨"income", 10, none⟩, ⟨"expense", 4, some "Кафе"⟩]
      (by decide) (by decide)⟩

end

end FinanceTracker

namespace API

theorem retryGo_spec {ε α : Type} (request : Nat → Except ε α) :
    ∀ (fuel i : Nat) (delay : Rat), 0 < fuel →
      1 ≤ (retryGo request i delay fuel).2.1 ∧
      (retryGo request i delay fuel).2.1 ≤ fuel ∧
      (retryGo request i delay fuel).1 =
        some (request (i + (retryGo request i delay fuel).2.1 - 1)) ∧
      (∀ j, i ≤ j → j < i + (retryGo request i delay fuel).2.1 - 1 →
        ∃ e, request j = .error e) ∧
      ((∃ a, request (i + (retryGo request i delay fuel).2.1 - 1) = .ok a) ∨
        (retryGo request i delay fuel).2.1 = fuel) ∧
      (retryGo request i delay fuel).2.2 =
        (List.range ((retryGo request i delay fuel).2.1 - 1)).map
          fun j => delay * 2 ^ j := by
  intro fuel
  induction fuel with
  | zero => intro i delay h; exact absurd h (lt_irrefl 0)
  | succ f ih =>
    intro i delay _
    cases hreq : request i with
    | ok a =>
      have hgo : retryGo request i delay (f + 1) = (some (.ok a), 1, []) := by
        rw [retryGo, hreq]
      rw [hgo]
      dsimp only
      have hi : i + 1 - 1 = i := by omega
      refine ⟨le_refl 1, by omega, ?_, ?_, ?_, by simp⟩
      · rw [hi, hreq]
      · intro j hj1 hj2
        omega
      · left
        rw [hi, hreq]
        exact ⟨a, rfl⟩
    | error e =>
      by_cases hf : f = 0
      · subst hf
        have hgo : retryGo request i delay 1 = (some (.error e), 1, []) := by
          rw [retryGo, hreq]
          simp
        rw [hgo]
        dsimp only
        have hi : i + 1 - 1 = i := by omega
        refine ⟨le_refl 1, le_refl 1, ?_, ?_, Or.inr rfl, by simp⟩
        · rw [hi, hreq]
        · intro j hj1 hj2
          omega
      · have hfpos : 0 < f := Nat.pos_of_ne_zero hf
        have hgo : retryGo request i delay (f + 1) =
            ((retryGo request (i + 1) (delay * 2) f).1,
              (retryGo request (i + 1) (delay * 2) f).2.1 + 1,
              delay :: (retryGo request (i + 1) (delay * 2) f).2.2) := by
          rw [retryGo, hreq]
          simp [hf]
        obtain ⟨ih1, ih2, ih3, ih4, ih5, ih6⟩ := ih (i + 1) (delay * 2) hfpos
        rw [hgo]
        dsimp only
        have hidx : i + 1 + (retryGo request (i + 1) (delay * 2) f).2.1 - 1 =
            i + ((retryGo request (i + 1) (delay * 2) f).2.1 + 1) - 1 := by
          omega
        refine ⟨by omega, by omega, ?_, ?_, ?_, ?_⟩
        · rw [ih3, hidx]
        · intro j hj1 hj2
          by_cases hji : j = i
          · exact ⟨e, hji ▸ hreq⟩
          · refine ih4 j (by omega) (by omega)
        · rcases ih5 with h5 | h5
          · left
            rw [← hidx]
            exact h5
          · right
            omega
        · rw [ih6]
          have hn : (retryGo request (i + 1) (delay * 2) f).2.1 + 1 - 1 =
              ((retryGo request (i + 1) (delay * 2) f).2.1 - 1) + 1 := by
            omega
          rw [hn, List.range_succ_eq_map, List.map_cons, List.map_map,
            pow_zero, mul_one]
          refine congrArg (List.cons delay) ?_
          refine List.map_congr_left ?_
          intro j _
          show delay * 2 * 2 ^ j = delay * 2 ^ (j + 1)
          rw [pow_succ]
          ring

/-- C4: `API.retryRequest` is a generic exponential-backoff retry helper:
with `maxRetries ≥ 1` it makes between 1 and `maxRetries` attempts, stops
at the first success, returns the outcome of its last attempt (so a final
failure is rethrown after `maxRetries` attempts), every attempt before the
last fails, and the delays waited between attempts are
`delay, 2·delay, 4·delay, …` (attempt `i` is preceded by a wait of
`delay · 2^(i-1)`). -/
theorem retryRequest_spec {ε α : Type} (request : Nat → Except ε α)
    (maxRetries : Nat) (delay : Rat) (h : 1 ≤ maxRetries) :
    1 ≤ (retryRequest request maxRetries delay).2.1 ∧
      (retryRequest request maxRetries delay).2.1 ≤ maxRetries ∧
      (retryRequest request maxRetries delay).1 =
        some (request ((retryRequest request maxRetries delay).2.1 - 1)) ∧
      (∀ j, j < (retryRequest request maxRetries delay).2.1 - 1 →
        ∃ e, request j = .error e) ∧
      ((∃ a, request ((retryRequest request maxRetries delay).2.1 - 1)
          = .ok a) ∨
        (retryRequest request maxRetries delay).2.1 = maxRetries) ∧
      (retryRequest request maxRetries delay).2.2 =
        (List.range ((retryRequest request maxRetries delay).2.1 - 1)).map
          fun j => delay * 2 ^ j := by
  obtain ⟨h1, h2, h3, h4, h5, h6⟩ :=
    retryGo_spec request maxRetries 0 delay (by omega)
  rw [retryRequest]
  have hz : ∀ n : Nat, 0 + n - 1 = n - 1 := fun n => by omega
  rw [hz] at h3 h5
  refine ⟨h1, h2, h3, ?_, h5, h6⟩
  intro j hj
  exact h4 j (Nat.zero_le j) (by omega)

/-- C4 witness: the theorem instantiated at a request that fails once and
then succeeds, with `maxRetries = 3` and initial delay `1`. -/
theorem retryRequest_spec_witness :
    1 ≤ 3 ∧
      (1 ≤ (retryRequest
          (fun i => if i = 0 then Except.error "fail" else Except.ok (7 : Nat))
          3 1).2.1 ∧
        (retryRequest
          (fun i => if i = 0 then Except.error "fail" else Except.ok (7 : Nat))
          3 1).2.1 ≤ 3 ∧
        (retryRequest
          (fun i => if i = 0 then Except.error "fail" else Except.ok (7 : Nat))
          3 1).1 =
          some ((fun i => if i = 0 then Except.error "fail"
              else Except.ok (7 : Nat))
            ((retryRequest
              (fun i => if i = 0 then Except.error "fail"
                else Except.ok (7 : Nat)) 3 1).2.1 - 1)) ∧
        (∀ j, j < (retryRequest
            (fun i => if i = 0 then Except.error "fail"
              else Except.ok (7 : Nat)) 3 1).2.1 - 1 →
          ∃ e, (fun i => if i = 0 then Except.error "fail"
              else Except.ok (7 : Nat)) j = .error e) ∧
        ((∃ a, (fun i => if i = 0 then Except.error "fail"
              else Except.ok (7 : Nat))
            ((retryRequest
              (fun i => if i = 0 then Except.error "fail"
                else Except.ok (7 : Nat)) 3 1).2.1 - 1) = .ok a) ∨
          (retryRequest
            (fun i => if i = 0 then Except.error "fail"
              else Except.ok (7 : Nat)) 3 1).2.1 = 3) ∧
        (retryRequest
          (fun i => if i = 0 then Except.error "fail"
            else Except.ok (7 : Nat)) 3 1).2.2 =
          (List.range ((retryRequest
            (fun i => if i = 0 then Except.error "fail"
              else Except.ok (7 : Nat)) 3 1).2.1 - 1)).map
            fun j => (1 : Rat) * 2 ^ j) :=
  ⟨by decide,
    retryRequest_spec
      (fun i => if i = 0 then Except.error "fail" else Except.ok (7 : Nat))
      3 1 (by decide)⟩

end API

namespace Schema

/-- C5: the schema defines exactly the three tables `users`, `categories`
and `transactions`, each with a generated SERIAL primary key named `id`
(and no other primary-key column), plus secondary indexes on each of the
three tables. -/
theorem financeSchema_three_tables :
    financeSchema.tables.map TableDef.name =
        ["users", "categories", "transactions"] ∧
      (∀ t ∈ financeSchema.tables,
        (t.columns.filter fun c => c.primaryKey).map ColumnDef.name
            = ["id"] ∧
          ∃ c ∈ t.columns, c.name = "id" ∧ c.sqlType = SqlType.serial ∧
            c.primaryKey = true) ∧
      (∀ t ∈ financeSchema.tables,
        ∃ i ∈ financeSchema.indexes, i.table = t.name) := by
  decide

/-- C6: the BEFORE UPDATE triggers `update_users_updated_at` and
`update_transactions_updated_at` store, for every proposed row, that row
with `updated_at` set to the current time and every other column exactly
as the update statement proposed it. -/
theorem update_updated_at_frame (u : UsersRow) (tx : TransactionsRow)
    (now : Nat) :
    (updateUpdatedAtUsers u now).updated_at = now ∧
      (updateUpdatedAtUsers u now).id = u.id ∧
      (updateUpdatedAtUsers u now).telegram_user_id = u.telegram_user_id ∧
      (updateUpdatedAtUsers u now).username = u.username ∧
      (updateUpdatedAtUsers u now).first_name = u.first_name ∧
      (updateUpdatedAtUsers u now).last_name = u.last_name ∧
      (updateUpdatedAtUsers u now).created_at = u.created_at ∧
      (updateUpdatedAtTransactions tx now).updated_at = now ∧
      (updateUpdatedAtTransactions tx now).id = tx.id ∧
      (updateUpdatedAtTransactions tx now).user_id = tx.user_id ∧
      (updateUpdatedAtTransactions tx now).type = tx.type ∧
      (updateUpdatedAtTransactions tx now).amount = tx.amount ∧
      (updateUpdatedAtTransactions tx now).category_id = tx.category_id ∧
      (updateUpdatedAtTransactions tx now).description = tx.description ∧
      (updateUpdatedAtTransactions tx now).transaction_date
          = tx.transaction_date ∧
      (updateUpdatedAtTransactions tx now).created_at = tx.created_at :=
  ⟨rfl, rfl, rfl, rfl, rfl, rfl, rfl, rfl, rfl, rfl, rfl, rfl, rfl, rfl,
    rfl, rfl⟩

end Schema

namespace TelegramWebApp

/-- C7: `showAlert` delegates to the bridge's `showAlert` exactly when the
bridge object exists and provides one, otherwise it shows a browser alert
and then invokes the callback; `showConfirm` likewise delegates when
possible and otherwise invokes the callback with the browser `confirm`
result.  In both fallback paths the callback runs. -/
theorem showAlert_showConfirm_spec (tg : Option Bridge) (message : String)
    (confirmResult : Bool) :
    showAlert tg message true =
        (if (tg.map Bridge.hasShowAlert).getD false then
          [UIEvent.tgAlert message]
        else [UIEvent.browserAlert message, UIEvent.callbackRun]) ∧
      showConfirm tg message true confirmResult =
        (if (tg.map Bridge.hasShowConfirm).getD false then
          [UIEvent.tgConfirm message]
        else [UIEvent.browserConfirm message,
          UIEvent.callbackRunWith confirmResult]) := by
  cases tg with
  | none => simp [showAlert, showConfirm]
  | some b =>
    cases hb : b.hasShowAlert <;> cases hc : b.hasShowConfirm <;>
      simp [showAlert, showConfirm, hb, hc]

end TelegramWebApp

namespace API

/-- C10: `formatDate` returns string inputs unchanged (hence it is
idempotent on every input), formats a `Date` as `YYYY-MM-DD` from its
local components with month and day zero-padded to two characters, and on
any other input falls back to the current local date formatted the same
way. -/
theorem formatDate_spec (now : Int × Nat × Nat) :
    (∀ s, formatDate now (.str s) = s) ∧
      (∀ x, formatDate now (.str (formatDate now x)) = formatDate now x) ∧
      (∀ y m d, formatDate now (.date y m d) =
        toString y ++ "-" ++ padStart2 (toString (m + 1)) ++ "-"
          ++ padStart2 (toString d)) ∧
      (∀ m : Nat, m ≤ 11 → (padStart2 (toString (m + 1))).length = 2) ∧
      (∀ d : Nat, 1 ≤ d → d ≤ 31 → (padStart2 (toString d)).length = 2) ∧
      formatDate now .other =
        formatDate now (.date now.1 now.2.1 now.2.2) := by
  refine ⟨fun s => rfl, fun x => rfl, fun y m d => rfl, ?_, ?_, rfl⟩
  · intro m hm
    have h12 : ∀ m' : Nat, m' < 12 →
        (padStart2 (toString (m' + 1))).length = 2 := by decide
    exact h12 m (by omega)
  · intro d hd1 hd2
    have h32 : ∀ d' : Nat, d' < 32 → 1 ≤ d' →
        (padStart2 (toString d')).length = 2 := by decide
    exact h32 d (by omega) hd1

end API

namespace API

theorem typeCheck_iff (ty : Option String) :
    (!truthyStr ty || !includesType ty) = false ↔
      (ty = some "income" ∨ ty = some "expense") := by
  cases ty with
  | none => simp [truthyStr]
  | some s =>
    by_cases h1 : s = "income"
    · subst h1; simp [truthyStr, includesType]
    · by_cases h2 : s = "expense"
      · subst h2; simp [truthyStr, includesType]
      · simp [truthyStr, includesType, h1, h2]

theorem amountCheck_iff (am : Option Rat) :
    (!truthyRat am || leZero am) = false ↔
      ∃ a, am = some a ∧ ¬ a = 0 ∧ 0 < a := by
  cases am with
  | none => simp [truthyRat]
  | some q =>
    by_cases hq : q = 0
    · subst hq; simp [truthyRat, leZero]
    · simp only [truthyRat, leZero, Bool.not_not, Bool.or_eq_false_iff,
        Bool.not_eq_false, decide_eq_true_eq, decide_eq_false_iff_not,
        not_le, Option.some.injEq]
      constructor
      · rintro ⟨-, hpos⟩
        exact ⟨q, rfl, hq, hpos⟩
      · rintro ⟨a, rfl, -, hpos⟩
        exact ⟨hq, hpos⟩

theorem cidCheck_iff (cid : Option Int) :
    (!truthyInt cid) = false ↔ ∃ n, cid = some n ∧ ¬ n = 0 := by
  cases cid with
  | none => simp [truthyInt]
  | some n => simp [truthyInt]

theorem dateCheck_iff (dt : Option String) :
    (!truthyStr dt) = false ↔ ∃ s, dt = some s ∧ ¬ s = "" := by
  cases dt with
  | none => simp [truthyStr]
  | some s => simp [truthyStr]

theorem validateTransaction_valid (d : TxData) :
    (validateTransaction d).valid = true ↔
      ((!truthyStr d.type || !includesType d.type) = false ∧
        (!truthyRat d.amount || leZero d.amount) = false ∧
        (!truthyInt d.category_id) = false ∧
        (!truthyStr d.date) = false) := by
  by_cases h1 : (!truthyStr d.type || !includesType d.type) = true <;>
    by_cases h2 : (!truthyRat d.amount || leZero d.amount) = true <;>
      by_cases h3 : (!truthyInt d.category_id) = true <;>
        by_cases h4 : (!truthyStr d.date) = true <;>
          simp [validateTransaction, h1, h2, h3, h4]

theorem validateTransaction_valid_iff_errors (d : TxData) :
    (validateTransaction d).valid = true ↔
      (validateTransaction d).errors = [] := by
  by_cases h1 : (!truthyStr d.type || !includesType d.type) = true <;>
    by_cases h2 : (!truthyRat d.amount || leZero d.amount) = true <;>
      by_cases h3 : (!truthyInt d.category_id) = true <;>
        by_cases h4 : (!truthyStr d.date) = true <;>
          simp [validateTransaction, h1, h2, h3, h4]

/-- C8: `validateTransaction` reports `valid = true` exactly when the type
is `'income'` or `'expense'`, the amount is present, truthy and strictly
positive, the category id is present and truthy, and the date is present
and truthy; and `valid = true` exactly when the errors list is empty. -/
theorem validateTransaction_spec (d : TxData) :
    ((validateTransaction d).valid = true ↔
      ((d.type = some "income" ∨ d.type = some "expense") ∧
        (∃ a, d.amount = some a ∧ ¬ a = 0 ∧ 0 < a) ∧
        (∃ n, d.category_id = some n ∧ ¬ n = 0) ∧
        (∃ s, d.date = some s ∧ ¬ s = ""))) ∧
    ((validateTransaction d).valid = true ↔
      (validateTransaction d).errors = []) := by
  constructor
  · rw [validateTransaction_valid, typeCheck_iff, amountCheck_iff,
      cidCheck_iff, dateCheck_iff]
  · exact validateTransaction_valid_iff_errors d

end API

namespace Database

theorem txRowOk_imp (userIds : List Int) (r : TxRow)
    (h : txRowOk userIds r = true) :
    (r.type = "income" ∨ r.type = "expense") ∧ 0 < r.amount ∧
      r.user_id ∈ userIds ∧ r.transaction_date.isSome = true := by
  simp only [txRowOk, Bool.and_eq_true, Bool.or_eq_true, beq_iff_eq,
    decide_eq_true_eq, List.contains, List.elem_eq_mem] at h
  exact ⟨h.1.1.1, h.1.1.2, h.1.2, h.2⟩

theorem applyOp_inv (db : DBState) (op : DBOp)
    (h : ∀ e ∈ db.transactions, rowInv db e.2) :
    ∀ e ∈ (applyOp db op).transactions, rowInv (applyOp db op) e.2 := by
  cases op with
  | insertUser uid =>
    by_cases hc : db.userIds.contains uid = true
    · have hop : applyOp db (.insertUser uid) = db := by
        simp only [applyOp, if_pos hc]
      rw [hop]
      exact h
    · have hop : applyOp db (.insertUser uid) =
          { db with userIds := db.userIds ++ [uid] } := by
        simp only [applyOp, if_neg hc]
      rw [hop]
      intro e he
      obtain ⟨h1, h2, h3, h4⟩ := h e he
      exact ⟨h1, h2, List.mem_append_left _ h3, h4⟩
  | insertTx id row =>
    by_cases hc : (txRowOk db.userIds row &&
        !(db.transactions.any fun e => e.1 == id)) = true
    · have hop : applyOp db (.insertTx id row) =
          { db with transactions := db.transactions ++ [(id, row)] } := by
        simp only [applyOp, if_pos hc]
      rw [hop]
      intro e he
      rcases List.mem_append.mp he with he | he
      · obtain ⟨h1, h2, h3, h4⟩ := h e he
        exact ⟨h1, h2, h3, h4⟩
      · rw [List.mem_singleton] at he
        subst he
        have hc1 : txRowOk db.userIds row = true := by
          simp only [Bool.and_eq_true] at hc
          exact hc.1
        have hok := txRowOk_imp db.userIds row hc1
        exact ⟨hok.1, hok.2.1, hok.2.2.1, hok.2.2.2⟩
    · have hop : applyOp db (.insertTx id row) = db := by
        simp only [applyOp, if_neg hc]
      rw [hop]
      exact h
  | updateTx id row =>
    by_cases hc : txRowOk db.userIds row = true
    · have hop : applyOp db (.updateTx id row) =
          { db with
            transactions :=
              db.transactions.map fun e =>
                if e.1 == id then (id, row) else e } := by
        simp only [applyOp, if_pos hc]
      rw [hop]
      intro e he
      obtain ⟨e0, he0, rfl⟩ := List.mem_map.mp he
      have hok := txRowOk_imp db.userIds row hc
      by_cases hid : (e0.1 == id) = true
      · rw [if_pos hid]
        exact ⟨hok.1, hok.2.1, hok.2.2.1, hok.2.2.2⟩
      · rw [if_neg hid]
        obtain ⟨h1, h2, h3, h4⟩ := h e0 he0
        exact ⟨h1, h2, h3, h4⟩
    · have hop : applyOp db (.updateTx id row) = db := by
        simp only [applyOp, if_neg hc]
      rw [hop]
      exact h

theorem foldl_applyOp_inv (ops : List DBOp) (db : DBState)
    (h : ∀ e ∈ db.transactions, rowInv db e.2) :
    ∀ e ∈ (ops.foldl applyOp db).transactions,
      rowInv (ops.foldl applyOp db) e.2 := by
  induction ops generalizing db with
  | nil => exact h
  | cons op ops ih =>
    rw [List.foldl_cons]
    exact ih (applyOp db op) (applyOp_inv db op h)

/-- C9: after any sequence of inserts and updates run against the declared
constraints, every row of `transactions` satisfies the row invariants
(income/expense type, positive amount, existing user, present date); and a
statement whose proposed row violates the constraints is rejected and
leaves the database unchanged. -/
theorem transactions_table_invariants (ops : List DBOp) :
    (∀ e ∈ (runOps ops).transactions, rowInv (runOps ops) e.2) ∧
      (∀ (db : DBState) (id : Int) (row : TxRow),
        txRowOk db.userIds row = false →
          applyOp db (.insertTx id row) = db ∧
          applyOp db (.updateTx id row) = db) := by
  constructor
  · rw [runOps]
    refine foldl_applyOp_inv ops initialState ?_
    intro e he
    cases he
  · intro db id row hbad
    constructor
    · simp [applyOp, hbad]
    · simp [applyOp, hbad]

end Database
